import Mathlib

/-!
Verification of the MCP process/protocol manager specification against the
repository's code. The frontend chat page (`frontend/src/app/page.tsx`) is
embedded directly from source. The backend components (Server Registry,
Process Supervisor, Protocol Engine, Tool Cache) are not present in the
source tree: they are modelled from the specification text, as noted on the
corresponding definitions.
-/

namespace McpManager

/-! ## Data model (spec section 3) -/

/-- Modelled from the spec: `Template` archetype from the Template Catalog
(backend `server_registry.py` is absent from the source tree):
kind, launch command, base args, required environment keys, description. -/
structure Template where
  kind : String
  launchCommand : String
  baseArgs : List String
  requiredEnvKeys : List String
  description : String
  deriving DecidableEq, Repr

/-- Modelled from the spec: `ServerConfig` held by the Server Registry
(backend `server_registry.py` is absent from the source tree): unique name,
template kind, args, merged environment, enabled flag. -/
structure ServerConfig where
  name : String
  kind : String
  args : List String
  env : List (String × String)
  enabled : Bool
  deriving DecidableEq, Repr

/-- Modelled from the spec: the mutable Server Registry state, a collection
of concrete server configurations keyed by unique name. -/
structure Registry where
  configs : List ServerConfig
  deriving DecidableEq, Repr

/-- Modelled from the spec: the registry-level error taxonomy
(`NameConflict`, `UnknownTemplate`, `MissingEnv`, `NotFound`). -/
inductive RegError where
  | nameConflict
  | unknownTemplate
  | missingEnv
  | notFound
  deriving DecidableEq, Repr

/-- Modelled from the spec: `create(name, kind, overrides)` of the Server
Registry (backend `server_registry.py` is absent from the source tree).
It fails with `NameConflict` if the name exists, `UnknownTemplate` if the
kind is not in the Template Catalog, `MissingEnv` if required environment
keys are absent after merging overrides with the process-wide environment;
on failure the registry is returned unchanged. -/
def createServer (catalog : List Template) (procEnv : List (String × String))
    (reg : Registry) (name kind : String) (overrides : List (String × String)) :
    Registry × Option RegError :=
  if reg.configs.any (fun c => c.name = name) then
    (reg, some RegError.nameConflict)
  else
    match catalog.find? (fun t => t.kind = kind) with
    | none => (reg, some RegError.unknownTemplate)
    | some t =>
      let merged := overrides ++ procEnv
      if t.requiredEnvKeys.all (fun k => merged.any (fun kv => kv.1 = k)) then
        ({ configs := reg.configs ++
            [{ name := name, kind := kind, args := t.baseArgs,
               env := merged, enabled := true }] }, none)
      else
        (reg, some RegError.missingEnv)

/-- Look up the config registered under a name. -/
def Registry.configFor (reg : Registry) (name : String) : Option ServerConfig :=
  reg.configs.find? (fun c => c.name = name)

/-! ## Protocol Engine: request correlation (spec section 4.3) -/

/-- Modelled from the spec: `PendingRequest` in the Protocol Engine's
in-flight table (backend `mcp_manager.py` is absent from the source tree):
id unique while outstanding, method, issue time; the result slot is
represented by the entry's presence in the table. -/
structure PendingRequest where
  id : Nat
  method : String
  issuedAt : Nat
  deriving DecidableEq, Repr

/-- Modelled from the spec: per-connection Protocol Engine state — the next
unused request id (monotonically increasing per connection) and the
in-flight table of pending requests. -/
structure EngineState where
  nextId : Nat
  inflight : List PendingRequest
  deriving DecidableEq, Repr

/-- Modelled from the spec: the possible outcomes seen by a caller of
`invoke`: a result, `RequestTimeout`, or `ProcessCrashed`. -/
inductive InvokeOutcome where
  | result (payload : String)
  | requestTimeout
  | processCrashed
  deriving DecidableEq, Repr

/-- Modelled from the spec: what the correlation logic does with an inbound
response frame: resolve the matching pending entry, or log and discard. -/
inductive DispatchResult where
  | resolved (id : Nat)
  | discarded
  deriving DecidableEq, Repr

/-- Modelled from the spec: the registration step of
`invoke(method, params, timeout)` — allocate the next unused request id and
register a `PendingRequest`; returns the new state and the allocated id. -/
def registerPending (st : EngineState) (method : String) (now : Nat) :
    EngineState × Nat :=
  ({ nextId := st.nextId + 1,
     inflight := st.inflight ++ [{ id := st.nextId, method := method, issuedAt := now }] },
   st.nextId)

/-- Modelled from the spec: dispatch of an inbound response frame. If the id
has a pending entry it is resolved and removed; a response whose id has no
pending entry (already timed out, duplicate, or non-matching) is logged and
discarded, leaving the state untouched. -/
def handleResponse (st : EngineState) (id : Nat) : EngineState × DispatchResult :=
  if st.inflight.any (fun p => p.id == id) then
    ({ st with inflight := st.inflight.filter (fun p => p.id != id) },
     DispatchResult.resolved id)
  else
    (st, DispatchResult.discarded)

/-- Modelled from the spec: the timeout path of `invoke` — the timeout
elapses, the pending entry is removed, and the call fails with
`RequestTimeout`. -/
def timeoutPending (st : EngineState) (id : Nat) : EngineState × InvokeOutcome :=
  ({ st with inflight := st.inflight.filter (fun p => p.id != id) },
   InvokeOutcome.requestTimeout)

/-- Events observed by one connection's correlation state. -/
inductive EngEvent where
  | invoke (method : String) (now : Nat)
  | response (id : Nat)
  | timedOut (id : Nat)
  deriving DecidableEq, Repr

/-- One step of the correlation state machine. -/
def engStep (st : EngineState) (e : EngEvent) : EngineState :=
  match e with
  | EngEvent.invoke m now => (registerPending st m now).1
  | EngEvent.response id => (handleResponse st id).1
  | EngEvent.timedOut id => (timeoutPending st id).1

/-- Run the correlation state machine over a sequence of events. -/
def engRun (st : EngineState) (es : List EngEvent) : EngineState :=
  es.foldl engStep st

/-- Correlation-table invariant: every outstanding id is below the next
unused id. -/
def EngineInv (st : EngineState) : Prop :=
  ∀ p ∈ st.inflight, p.id < st.nextId

/-- A fresh engine for a newly wired connection. -/
def engInit : EngineState := { nextId := 1, inflight := [] }

/-! ## Protocol Engine: per-connection serialization (spec section 4.3/5) -/

/-- Modelled from the spec: the serialization state of one connection's
invoke queue. At most one request is in flight; later `invoke` calls wait
in `queue`. `written` records the ids of request frames actually written to
the pipe, `completed` the ids whose request/response pair has finished. -/
structure Connection where
  nextId : Nat
  inflight : Option Nat
  queue : List String
  written : List Nat
  completed : List Nat
  deriving DecidableEq, Repr

/-- Events on one connection: an `invoke` call arrives, or the current
in-flight request completes (response, timeout, or crash). -/
inductive ConnEvent where
  | invoke (method : String)
  | complete
  deriving DecidableEq, Repr

/-- Modelled from the spec: an `invoke` call on the connection. If a request
is already in flight the call is queued and nothing is written to the pipe;
otherwise its frame is written and it becomes the in-flight request. -/
def connInvoke (c : Connection) (m : String) : Connection :=
  match c.inflight with
  | some _ => { c with queue := c.queue ++ [m] }
  | none =>
      { c with nextId := c.nextId + 1, inflight := some c.nextId,
               written := c.written ++ [c.nextId] }

/-- Modelled from the spec: completion of the in-flight request; the next
queued `invoke`, if any, is then written to the pipe and becomes in-flight. -/
def connComplete (c : Connection) : Connection :=
  match c.inflight with
  | none => c
  | some i =>
      let c1 := { c with inflight := none, completed := c.completed ++ [i] }
      match c1.queue with
      | [] => c1
      | m :: rest => connInvoke { c1 with queue := rest } m

/-- One step of the serialization state machine. -/
def connStep (c : Connection) (e : ConnEvent) : Connection :=
  match e with
  | ConnEvent.invoke m => connInvoke c m
  | ConnEvent.complete => connComplete c

/-- Run the serialization state machine over a sequence of events. -/
def connRun (c : Connection) (es : List ConnEvent) : Connection :=
  es.foldl connStep c

/-- A fresh connection. -/
def connInit : Connection :=
  { nextId := 0, inflight := none, queue := [], written := [], completed := [] }

/-- The requests written to the pipe that have not yet completed. -/
def outstanding (c : Connection) : List Nat :=
  c.written.filter (fun i => decide (i ∉ c.completed))

/-- Serialization invariant: ids are allocated below `nextId`, and the
outstanding frames on the pipe are exactly the in-flight request. -/
def ConnInv (c : Connection) : Prop :=
  (∀ i ∈ c.written, i < c.nextId) ∧
  (∀ i ∈ c.completed, i < c.nextId) ∧
  (match c.inflight with
   | some i => outstanding c = [i]
   | none => outstanding c = [])

/-! ## Process Supervisor and Tool Cache (spec sections 4.2, 4.5) -/

/-- Modelled from the spec: `ToolDefinition` held by the Tool Cache
(backend `mcp_manager.py` is absent from the source tree): name,
description, input schema. -/
structure ToolDef where
  name : String
  description : String
  inputSchema : String
  deriving DecidableEq, Repr

/-- Modelled from the spec: lifecycle states of the per-server state
machine: Stopped, Starting, Running, Stopping, Failed. -/
inductive LifecycleState where
  | stopped
  | starting
  | running
  | stopping
  | failed
  deriving DecidableEq, Repr

/-- Modelled from the spec: the Supervisor's per-server entry — lifecycle
status, the exclusively owned process handle (pid) when running, the ids of
requests pending on that server's connection, and that server's Tool Cache
entries. -/
structure ServerEntry where
  status : LifecycleState
  handle : Option Nat
  pending : List Nat
  tools : List ToolDef
  deriving DecidableEq, Repr

/-- Modelled from the spec: `start(config)` — if already `Running`, no-op
returning the existing handle; otherwise the process is spawned, the
handshake performed, and on success the server becomes `Running` with the
discovered tools populating the Tool Cache. Returns the new entry and the
handle given to the caller. -/
def startServer (e : ServerEntry) (pid : Nat) (discovered : List ToolDef) :
    ServerEntry × Option Nat :=
  if e.status = LifecycleState.running then
    (e, e.handle)
  else
    ({ status := LifecycleState.running, handle := some pid,
       pending := e.pending, tools := discovered }, some pid)

/-- Modelled from the spec: `stop(name)` — transitions through `Stopping`,
terminates the process (gracefully, then forcibly), always ends in
`Stopped`, and clears the Tool Cache for that server. -/
def stopServer (_e : ServerEntry) : ServerEntry :=
  { status := LifecycleState.stopped, handle := none, pending := [], tools := [] }

/-- Modelled from the spec: unexpected process exit. While `Running` it is
detected asynchronously, the server transitions directly to `Failed`, and
every currently pending request on that connection fails with
`ProcessCrashed`; the Tool Cache entries become invalid. Returns the new
entry and the outcome delivered to each pending request. -/
def onProcessExit (e : ServerEntry) : ServerEntry × List (Nat × InvokeOutcome) :=
  if e.status = LifecycleState.running then
    ({ status := LifecycleState.failed, handle := none, pending := [], tools := [] },
     e.pending.map (fun i => (i, InvokeOutcome.processCrashed)))
  else
    (e, [])

/-- Events on one server's supervisor entry. -/
inductive SupEvent where
  | startOk (pid : Nat) (discovered : List ToolDef)
  | startFailed
  | invokeReq (id : Nat)
  | respond (id : Nat)
  | stop
  | crash
  deriving DecidableEq, Repr

/-- One step of the per-server supervisor state machine, modelled from the
spec's lifecycle description. -/
def supStep (e : ServerEntry) (ev : SupEvent) : ServerEntry :=
  match ev with
  | SupEvent.startOk pid ts => (startServer e pid ts).1
  | SupEvent.startFailed =>
      if e.status = LifecycleState.running then e
      else { status := LifecycleState.failed, handle := none,
             pending := e.pending, tools := [] }
  | SupEvent.invokeReq id =>
      if e.status = LifecycleState.running then
        { e with pending := e.pending ++ [id] }
      else e
  | SupEvent.respond id =>
      { e with pending := e.pending.filter (fun j => j != id) }
  | SupEvent.stop => stopServer e
  | SupEvent.crash => (onProcessExit e).1

/-- Run the supervisor state machine over a sequence of events. -/
def supRun (e : ServerEntry) (es : List SupEvent) : ServerEntry :=
  es.foldl supStep e

/-- A server entry before its first start. -/
def supInit : ServerEntry :=
  { status := LifecycleState.stopped, handle := none, pending := [], tools := [] }

/-- Supervisor invariants from the spec: a ProcessHandle exists if and only
if the server is `Running`, and Tool Cache entries exist only while the
server is `Running` (between a successful handshake and the next stop or
crash). -/
def SupInv (e : ServerEntry) : Prop :=
  (e.handle.isSome = true ↔ e.status = LifecycleState.running) ∧
  (e.tools ≠ [] → e.status = LifecycleState.running)

/-- Modelled from the spec: the Tool Cache, keyed by server name then tool
name. -/
structure ToolCache where
  entries : List (String × List ToolDef)
  deriving DecidableEq, Repr

/-- Modelled from the spec: `toolsFor(name)` — the ordered tool definitions
for one server, empty if the server is not running or discovery has not
completed. -/
def toolsFor (tc : ToolCache) (server : String) : List ToolDef :=
  match tc.entries.find? (fun kv => kv.1 = server) with
  | some kv => kv.2
  | none => []

/-- Modelled from the spec: `allTools(selectedNames)` — the combined tool
list across the selected servers, each tool's name qualified with its
owning server to avoid collisions. -/
def allTools (tc : ToolCache) (selected : List String) :
    List (String × String × ToolDef) :=
  selected.flatMap (fun n =>
    (toolsFor tc n).map (fun t => (n ++ "." ++ t.name, n, t)))

/-! ## Frontend chat page, embedded from frontend/src/app/page.tsx -/

/-- Embedded from `sendMessage` in `frontend/src/app/page.tsx` (both
versions): the `enabled_servers` field of the chat request body is
`selectedServers.length > 0 ? selectedServers : null`. -/
def enabledServersField (selectedServers : List String) : Option (List String) :=
  if selectedServers.length > 0 then some selectedServers else none

/-- Whitespace characters removed by the JavaScript `trim` builtin (the
set relevant to this page's inputs). -/
def isJsWs (c : Char) : Bool :=
  c = ' ' || c = '\t' || c = '\n' || c = '\r'

/-- The semantics of the JavaScript `String.prototype.trim` builtin:
remove leading and trailing whitespace. -/
def jsTrim (s : String) : String :=
  String.mk (((s.data.dropWhile isJsWs).reverse.dropWhile isJsWs).reverse)

/-- The semantics of the JavaScript `String.prototype.startsWith` builtin. -/
def strStartsWith (s p : String) : Bool :=
  p.data.isPrefixOf s.data

/-- The semantics of the JavaScript `String.prototype.endsWith` builtin. -/
def strEndsWith (s p : String) : Bool :=
  p.data.reverse.isPrefixOf s.data.reverse

/-- Embedded from `isJsonString` in the extended `page.tsx`: the trimmed
content must start and end with curly braces, or start and end with square
brackets. The surrounding try/catch in the source is dead code because
`trim`/`startsWith`/`endsWith` never throw. -/
def isJsonString (str : String) : Bool :=
  let trimmed := jsTrim str
  (strStartsWith trimmed "\x7b" && strEndsWith trimmed "\x7d") ||
  (strStartsWith trimmed "[" && strEndsWith trimmed "]")

/-- JSON values as produced by parsing. Numbers keep their source lexeme:
the page only renders parsed values, so numeric value semantics are not
needed. -/
inductive JsonValue where
  | null
  | bool (b : Bool)
  | num (lexeme : String)
  | str (s : String)
  | arr (items : List JsonValue)
  | obj (fields : List (String × JsonValue))
  deriving Repr

/-- Whitespace characters accepted between JSON tokens. -/
def isJsonWs (c : Char) : Bool :=
  c = ' ' || c = '\t' || c = '\n' || c = '\r'

/-- Drop leading JSON whitespace. -/
def skipWs : List Char → List Char
  | [] => []
  | c :: cs => if isJsonWs c then skipWs cs else c :: cs

/-- Value of a hexadecimal digit, if the character is one. -/
def hexVal (c : Char) : Option Nat :=
  if c.isDigit then some (c.toNat - 48)
  else if 97 ≤ c.toNat ∧ c.toNat ≤ 102 then some (c.toNat - 97 + 10)
  else if 65 ≤ c.toNat ∧ c.toNat ≤ 70 then some (c.toNat - 65 + 10)
  else none

/-- Parse the body of a JSON string literal after the opening quote,
handling escapes; returns the decoded string and the rest of the input. -/
def parseStringBody : Nat → List Char → Option (String × List Char)
  | 0, _ => none
  | _ + 1, [] => none
  | fuel + 1, c :: cs =>
    if c = '"' then some ("", cs)
    else if c = '\\' then
      match cs with
      | [] => none
      | e :: cs2 =>
        if e = '"' || e = '\\' || e = '/' then
          (parseStringBody fuel cs2).map (fun r => (e.toString ++ r.1, r.2))
        else if e = 'b' then
          (parseStringBody fuel cs2).map (fun r => ((Char.ofNat 8).toString ++ r.1, r.2))
        else if e = 'f' then
          (parseStringBody fuel cs2).map (fun r => ((Char.ofNat 12).toString ++ r.1, r.2))
        else if e = 'n' then
          (parseStringBody fuel cs2).map (fun r => ("\n" ++ r.1, r.2))
        else if e = 'r' then
          (parseStringBody fuel cs2).map (fun r => ("\r" ++ r.1, r.2))
        else if e = 't' then
          (parseStringBody fuel cs2).map (fun r => ("\t" ++ r.1, r.2))
        else if e = 'u' then
          match cs2 with
          | h1 :: h2 :: h3 :: h4 :: cs3 =>
            match hexVal h1, hexVal h2, hexVal h3, hexVal h4 with
            | some a, some b, some c2, some d =>
              (parseStringBody fuel cs3).map
                (fun r => ((Char.ofNat (((a * 16 + b) * 16 + c2) * 16 + d)).toString ++ r.1, r.2))
            | _, _, _, _ => none
          | _ => none
        else none
    else (parseStringBody fuel cs).map (fun r => (c.toString ++ r.1, r.2))

/-- Split off a maximal run of leading decimal digits. -/
def takeDigits : List Char → List Char × List Char
  | [] => ([], [])
  | c :: cs =>
    if c.isDigit then
      let r := takeDigits cs
      (c :: r.1, r.2)
    else ([], c :: cs)

/-- Parse the optional fraction part of a JSON number. -/
def parseFrac (cs : List Char) : Option (List Char × List Char) :=
  match cs with
  | c :: rest =>
    if c = '.' then
      let (ds, rest2) := takeDigits rest
      if ds.isEmpty then none else some (c :: ds, rest2)
    else some ([], cs)
  | [] => some ([], [])

/-- Parse the optional exponent part of a JSON number. -/
def parseExp (cs : List Char) : Option (List Char × List Char) :=
  match cs with
  | c :: rest =>
    if c = 'e' || c = 'E' then
      let (sgn, rest1) :=
        match rest with
        | s :: r2 => if s = '+' || s = '-' then ([s], r2) else (([] : List Char), rest)
        | [] => ([], [])
      let (ds, rest2) := takeDigits rest1
      if ds.isEmpty then none else some (c :: (sgn ++ ds), rest2)
    else some ([], cs)
  | [] => some ([], [])

/-- Parse a JSON number, returning its lexeme and the rest of the input.
Leading zeros are rejected as in the JSON grammar. -/
def parseNumber (cs : List Char) : Option (String × List Char) :=
  let (sign, cs1) :=
    match cs with
    | c :: rest => if c = '-' then ([c], rest) else (([] : List Char), cs)
    | [] => ([], [])
  let (ip, cs2) := takeDigits cs1
  if ip.isEmpty then none
  else if ip.length > 1 ∧ ip.head? = some '0' then none
  else
    match parseFrac cs2 with
    | none => none
    | some (fp, cs3) =>
      match parseExp cs3 with
      | none => none
      | some (ep, cs4) => some (String.mk (sign ++ ip ++ fp ++ ep), cs4)

mutual

/-- Parse one JSON value; fuel bounds the nesting recursion. -/
def parseVal : Nat → List Char → Option (JsonValue × List Char)
  | 0, _ => none
  | fuel + 1, cs =>
    match skipWs cs with
    | [] => none
    | c :: rest =>
      if c = 'n' then
        match rest with
        | 'u' :: 'l' :: 'l' :: rest2 => some (JsonValue.null, rest2)
        | _ => none
      else if c = 't' then
        match rest with
        | 'r' :: 'u' :: 'e' :: rest2 => some (JsonValue.bool true, rest2)
        | _ => none
      else if c = 'f' then
        match rest with
        | 'a' :: 'l' :: 's' :: 'e' :: rest2 => some (JsonValue.bool false, rest2)
        | _ => none
      else if c = '"' then
        match parseStringBody (rest.length + 1) rest with
        | some (s, rest2) => some (JsonValue.str s, rest2)
        | none => none
      else if c = Char.ofNat 91 then
        match skipWs rest with
        | c2 :: rest2 =>
          if c2 = Char.ofNat 93 then some (JsonValue.arr [], rest2)
          else
            match parseElems fuel (c2 :: rest2) with
            | some (items, rest3) => some (JsonValue.arr items, rest3)
            | none => none
        | [] => none
      else if c = Char.ofNat 123 then
        match skipWs rest with
        | c2 :: rest2 =>
          if c2 = Char.ofNat 125 then some (JsonValue.obj [], rest2)
          else
            match parseFields fuel (c2 :: rest2) with
            | some (fields, rest3) => some (JsonValue.obj fields, rest3)
            | none => none
        | [] => none
      else
        match parseNumber (c :: rest) with
        | some (lex, rest2) => some (JsonValue.num lex, rest2)
        | none => none

/-- Parse the comma-separated elements of a non-empty JSON array, up to and
including the closing bracket. -/
def parseElems : Nat → List Char → Option (List JsonValue × List Char)
  | 0, _ => none
  | fuel + 1, cs =>
    match parseVal fuel cs with
    | none => none
    | some (v, rest) =>
      match skipWs rest with
      | c :: rest2 =>
        if c = ',' then
          match parseElems fuel rest2 with
          | some (vs, rest3) => some (v :: vs, rest3)
          | none => none
        else if c = Char.ofNat 93 then some ([v], rest2)
        else none
      | [] => none

/-- Parse the comma-separated members of a non-empty JSON object, up to and
including the closing brace. -/
def parseFields : Nat → List Char → Option (List (String × JsonValue) × List Char)
  | 0, _ => none
  | fuel + 1, cs =>
    match skipWs cs with
    | c :: rest =>
      if c = '"' then
        match parseStringBody (rest.length + 1) rest with
        | some (k, rest2) =>
          match skipWs rest2 with
          | c2 :: rest3 =>
            if c2 = ':' then
              match parseVal fuel rest3 with
              | none => none
              | some (v, rest4) =>
                match skipWs rest4 with
                | c3 :: rest5 =>
                  if c3 = ',' then
                    match parseFields fuel rest5 with
                    | some (fs, rest6) => some ((k, v) :: fs, rest6)
                    | none => none
                  else if c3 = Char.ofNat 125 then some ([(k, v)], rest5)
                  else none
                | [] => none
            else none
          | [] => none
        | none => none
      else none
    | [] => none

end

/-- The semantics of `JSON.parse` as used by the page: parse one value,
allowing surrounding whitespace, and fail (throw) on anything else. -/
def jsonParse (s : String) : Except String JsonValue :=
  match parseVal (2 * s.length + 2) s.data with
  | some (v, rest) =>
    if (skipWs rest).isEmpty then Except.ok v
    else Except.error "Unexpected token"
  | none => Except.error "Unexpected end of JSON input"

/-- Embedded from `parseJsonSafely` in the extended `page.tsx`: return
`JSON.parse(str)` and `null` (here `none`) if parsing throws. -/
def parseJsonSafely (s : String) : Option JsonValue :=
  match jsonParse s with
  | Except.ok v => some v
  | Except.error _ => none

/-- A chat transcript message as held in the page's `messages` state. -/
structure ChatMessage where
  role : String
  content : String
  toolName : Option String
  deriving DecidableEq, Repr

/-- The page state touched by `sendMessage`: the transcript, the input box,
and the loading flag. -/
structure ChatState where
  messages : List ChatMessage
  input : String
  loading : Bool
  deriving DecidableEq, Repr

/-- How the `/chat` fetch inside `sendMessage` turns out: a response whose
body has a `messages` array, a response without one, or a thrown error. -/
inductive FetchOutcome where
  | ok (msgs : List ChatMessage)
  | noMessages
  | failed (errMsg : String)
  deriving DecidableEq, Repr

/-- Embedded from `sendMessage` in `frontend/src/app/page.tsx` (both
versions): return immediately if the trimmed input is empty or a request is
already loading; otherwise append the user message, clear the input, set
`loading`, apply the fetch outcome (appending the returned messages, or an
assistant error message if the fetch threw), and finally reset `loading`.
The boolean result records whether a request was issued. -/
def sendMessage (st : ChatState) (outcome : FetchOutcome) : ChatState × Bool :=
  if jsTrim st.input = "" ∨ st.loading = true then (st, false)
  else
    let afterSend : ChatState :=
      { messages := st.messages ++
          [{ role := "user", content := st.input, toolName := none }],
        input := "", loading := true }
    let afterResp : ChatState :=
      match outcome with
      | FetchOutcome.ok msgs => { afterSend with messages := afterSend.messages ++ msgs }
      | FetchOutcome.noMessages => afterSend
      | FetchOutcome.failed e =>
          { afterSend with messages := afterSend.messages ++
              [{ role := "assistant", content := "Error: " ++ e, toolName := none }] }
    ({ afterResp with loading := false }, true)

/-! ## Shared example states for witnesses -/

/-- A concrete engine state with one pending request (id 1). -/
def exEngine : EngineState :=
  { nextId := 3,
    inflight := [{ id := 1, method := "tools/call", issuedAt := 0 }] }

/-- A concrete running server entry with two pending requests and a cached
tool. -/
def exRunning : ServerEntry :=
  { status := LifecycleState.running, handle := some 42, pending := [1, 2],
    tools := [{ name := "list_items", description := "d", inputSchema := "s" }] }

end McpManager

namespace McpManager

/-! ## Claim C3 -/

/-- C3: a `registerServer`/`create` call whose name is already present in
the Registry fails with `NameConflict`, and the Registry state after the
failed call equals the state before it (in particular the existing config
under that name is unchanged). -/
theorem create_name_conflict_leaves_registry_unchanged
    (catalog : List Template) (procEnv : List (String × String))
    (reg : Registry) (name kind : String) (overrides : List (String × String))
    (h : reg.configs.any (fun c => c.name = name) = true) :
    createServer catalog procEnv reg name kind overrides =
      (reg, some RegError.nameConflict) := by
  unfold createServer
  rw [h]
  simp

/-- Witness for C3: registering a second server named "s1" fails with
`NameConflict` and leaves the one-entry registry exactly as it was. -/
theorem create_name_conflict_witness :
    (Registry.mk [{ name := "s1", kind := "stripe", args := ["serve"],
                    env := [("API_KEY", "k")], enabled := true }]).configs.any
        (fun c => c.name = "s1") = true ∧
    createServer [] []
        (Registry.mk [{ name := "s1", kind := "stripe", args := ["serve"],
                        env := [("API_KEY", "k")], enabled := true }])
        "s1" "stripe" [] =
      (Registry.mk [{ name := "s1", kind := "stripe", args := ["serve"],
                      env := [("API_KEY", "k")], enabled := true }],
       some RegError.nameConflict) :=
  ⟨by decide,
   create_name_conflict_leaves_registry_unchanged [] []
     (Registry.mk [{ name := "s1", kind := "stripe", args := ["serve"],
                     env := [("API_KEY", "k")], enabled := true }])
     "s1" "stripe" [] (by decide)⟩

/-! ## Claim C1 -/

/-- C1: when the timeout for a pending request elapses, `invoke` returns
`RequestTimeout`, the pending entry for that id is removed, and every other
pending entry is preserved; and a response whose id has no pending entry is
discarded with the engine state completely unchanged (no fault, no effect
on any other pending request). -/
theorem invoke_timeout_removes_entry_and_stray_response_discarded
    (st : EngineState) (id : Nat) :
    (timeoutPending st id).2 = InvokeOutcome.requestTimeout ∧
    (∀ p ∈ (timeoutPending st id).1.inflight, p.id ≠ id) ∧
    (∀ p ∈ st.inflight, p.id ≠ id → p ∈ (timeoutPending st id).1.inflight) ∧
    (st.inflight.any (fun p => p.id == id) = false →
      handleResponse st id = (st, DispatchResult.discarded)) := by
  refine ⟨rfl, ?_, ?_, ?_⟩
  · intro p hp
    have := List.of_mem_filter hp
    simpa using this
  · intro p hp hne
    exact List.mem_filter.mpr ⟨hp, by simpa using hne⟩
  · intro h
    unfold handleResponse
    rw [h]
    simp

/-- Witness for C1: on a concrete engine with pending id 1, timing out id 1
removes it and returns `RequestTimeout`, and a response with unknown id 5
is discarded with the state unchanged. -/
theorem invoke_timeout_witness :
    exEngine.inflight.any (fun p => p.id == 5) = false ∧
    handleResponse exEngine 5 = (exEngine, DispatchResult.discarded) ∧
    (timeoutPending exEngine 1).2 = InvokeOutcome.requestTimeout ∧
    (∀ p ∈ (timeoutPending exEngine 1).1.inflight, p.id ≠ 1) :=
  ⟨by decide,
   (invoke_timeout_removes_entry_and_stray_response_discarded exEngine 5).2.2.2
     (by decide),
   (invoke_timeout_removes_entry_and_stray_response_discarded exEngine 1).1,
   (invoke_timeout_removes_entry_and_stray_response_discarded exEngine 1).2.1⟩

/-! ## Claim C4: helper lemmas -/

/-- Dispatching a response never changes the id counter. -/
theorem handleResponse_nextId (st : EngineState) (id : Nat) :
    (handleResponse st id).1.nextId = st.nextId := by
  unfold handleResponse
  split <;> rfl

/-- An entry surviving response dispatch was already in the table. -/
theorem handleResponse_inflight_sub (st : EngineState) (id : Nat)
    (p : PendingRequest) (hp : p ∈ (handleResponse st id).1.inflight) :
    p ∈ st.inflight := by
  unfold handleResponse at hp
  split at hp
  · exact (List.mem_filter.mp hp).1
  · exact hp

/-- The id counter never decreases across a correlation step. -/
theorem engStep_nextId_le (st : EngineState) (e : EngEvent) :
    st.nextId ≤ (engStep st e).nextId := by
  cases e with
  | invoke m now => exact Nat.le_succ _
  | response id => exact le_of_eq (handleResponse_nextId st id).symm
  | timedOut id => exact le_refl _

/-- The id counter never decreases across a run. -/
theorem engRun_nextId_le (st : EngineState) (es : List EngEvent) :
    st.nextId ≤ (engRun st es).nextId := by
  induction es generalizing st with
  | nil => exact le_refl _
  | cons e es ih =>
      exact le_trans (engStep_nextId_le st e) (ih (engStep st e))

/-- The correlation-table invariant is preserved by every step. -/
theorem engStep_inv (st : EngineState) (e : EngEvent) (h : EngineInv st) :
    EngineInv (engStep st e) := by
  cases e with
  | invoke m now =>
      intro p hp
      simp only [engStep, registerPending, List.mem_append,
        List.mem_singleton] at hp
      rcases hp with hp | hp
      · exact Nat.lt_succ_of_lt (h p hp)
      · rw [hp]
        exact Nat.lt_succ_self _
  | response id =>
      intro p hp
      rw [show (engStep st (EngEvent.response id)).nextId = st.nextId from
        handleResponse_nextId st id]
      exact h p (handleResponse_inflight_sub st id p hp)
  | timedOut id =>
      intro p hp
      exact h p (List.mem_filter.mp hp).1

/-- The correlation-table invariant is preserved by every run. -/
theorem engRun_inv (st : EngineState) (es : List EngEvent) (h : EngineInv st) :
    EngineInv (engRun st es) := by
  induction es generalizing st with
  | nil => exact h
  | cons e es ih => exact ih (engStep st e) (engStep_inv st e h)

/-! ## Claim C4 -/

/-- C4: on one connection the allocated request ids are strictly
monotonically increasing — the id allocated by any later `invoke` (after
any interleaving of events) is strictly greater than the one allocated
now — and an id is never reused while a pending entry bearing it is still
in the in-flight table; the table invariant itself is preserved forever. -/
theorem invoke_ids_monotone_and_never_reused
    (st : EngineState) (m : String) (now : Nat) (h : EngineInv st) :
    (∀ p ∈ st.inflight, p.id ≠ (registerPending st m now).2) ∧
    (∀ es m2 now2,
      (registerPending st m now).2 <
        (registerPending (engRun (registerPending st m now).1 es) m2 now2).2) ∧
    (∀ es, EngineInv (engRun st es)) := by
  refine ⟨?_, ?_, ?_⟩
  · intro p hp
    exact Nat.ne_of_lt (h p hp)
  · intro es m2 now2
    have h1 : (registerPending st m now).1.nextId = st.nextId + 1 := rfl
    have h2 := engRun_nextId_le (registerPending st m now).1 es
    calc (registerPending st m now).2 = st.nextId := rfl
      _ < st.nextId + 1 := Nat.lt_succ_self _
      _ ≤ (engRun (registerPending st m now).1 es).nextId := by rw [← h1]; exact h2
      _ = (registerPending (engRun (registerPending st m now).1 es) m2 now2).2 := rfl
  · intro es
    exact engRun_inv st es h

/-- Witness for C4: on a concrete engine with pending id 1, the freshly
allocated id 3 differs from every outstanding id, and the allocation after
one further event is strictly larger. -/
theorem invoke_ids_monotone_witness :
    EngineInv exEngine ∧
    (∀ p ∈ exEngine.inflight, p.id ≠ (registerPending exEngine "tools/list" 7).2) ∧
    (registerPending exEngine "tools/list" 7).2 <
      (registerPending
        (engRun (registerPending exEngine "tools/list" 7).1 [EngEvent.response 1])
        "tools/call" 9).2 :=
  ⟨by unfold EngineInv; decide,
   (invoke_ids_monotone_and_never_reused exEngine "tools/list" 7
      (by unfold EngineInv; decide)).1,
   (invoke_ids_monotone_and_never_reused exEngine "tools/list" 7
      (by unfold EngineInv; decide)).2.1 [EngEvent.response 1] "tools/call" 9⟩

/-! ## Claim C2: helper lemmas -/

/-- Filtering out membership in `A ++ [i]` is filtering out membership in
`A` and then equality with `i`. -/
theorem filter_notmem_append (w A : List Nat) (i : Nat) :
    w.filter (fun j => decide (j ∉ A ++ [i])) =
      (w.filter (fun j => decide (j ∉ A))).filter (fun j => decide (j ≠ i)) := by
  rw [List.filter_filter]
  apply List.filter_congr
  intro a _
  by_cases h1 : a ∈ A <;> by_cases h2 : a = i <;>
    simp [h1, h2, List.mem_append]

/-- Appending a frame whose id is not yet completed appends it to the
outstanding list. -/
theorem filter_append_fresh (w A : List Nat) (n : Nat) (hn : n ∉ A) :
    (w ++ [n]).filter (fun j => decide (j ∉ A)) =
      w.filter (fun j => decide (j ∉ A)) ++ [n] := by
  rw [List.filter_append]
  simp [hn]

/-- An `invoke` call preserves the serialization invariant. -/
theorem connInvoke_inv (c : Connection) (m : String) (h : ConnInv c) :
    ConnInv (connInvoke c m) := by
  obtain ⟨hw, hc, hio⟩ := h
  unfold connInvoke
  cases hinf : c.inflight with
  | some j =>
      rw [hinf] at hio
      exact ⟨hw, hc, by simpa [outstanding] using hio⟩
  | none =>
      rw [hinf] at hio
      refine ⟨?_, ?_, ?_⟩
      · intro i hi
        rcases List.mem_append.mp hi with hi | hi
        · exact Nat.lt_succ_of_lt (hw i hi)
        · rw [List.mem_singleton.mp hi]
          exact Nat.lt_succ_self _
      · intro i hi
        exact Nat.lt_succ_of_lt (hc i hi)
      · show (c.written ++ [c.nextId]).filter (fun j => decide (j ∉ c.completed)) = [c.nextId]
        rw [filter_append_fresh c.written c.completed c.nextId
          (fun hmem => Nat.lt_irrefl _ (hc _ hmem))]
        rw [show c.written.filter (fun j => decide (j ∉ c.completed)) = [] from hio]
        exact List.nil_append _

/-- Completion of the in-flight request preserves the serialization
invariant. -/
theorem connComplete_inv (c : Connection) (h : ConnInv c) :
    ConnInv (connComplete c) := by
  obtain ⟨hw, hc, hio⟩ := h
  unfold connComplete
  cases hinf : c.inflight with
  | none =>
      rw [hinf] at hio
      exact ⟨hw, hc, by simpa [hinf] using hio⟩
  | some i =>
      rw [hinf] at hio
      have hmem : i ∈ outstanding c := by rw [hio]; exact List.mem_singleton_self i
      have hmem2 := List.mem_filter.mp hmem
      have hin : i < c.nextId := hw i hmem2.1
      have ho1 : c.written.filter (fun j => decide (j ∉ c.completed ++ [i])) = [] := by
        rw [filter_notmem_append]
        show (outstanding c).filter (fun j => decide (j ≠ i)) = []
        rw [hio]
        simp
      cases hq : c.queue with
      | nil =>
          refine ⟨hw, ?_, ?_⟩
          · intro j hj
            rcases List.mem_append.mp hj with hj | hj
            · exact hc j hj
            · rw [List.mem_singleton.mp hj]; exact hin
          · exact ho1
      | cons m rest =>
          show ConnInv (connInvoke _ m)
          unfold connInvoke
          refine ⟨?_, ?_, ?_⟩
          · intro j hj
            rcases List.mem_append.mp hj with hj | hj
            · exact Nat.lt_succ_of_lt (hw j hj)
            · rw [List.mem_singleton.mp hj]
              exact Nat.lt_succ_self _
          · intro j hj
            rcases List.mem_append.mp hj with hj | hj
            · exact Nat.lt_succ_of_lt (hc j hj)
            · rw [List.mem_singleton.mp hj]
              exact Nat.lt_succ_of_lt hin
          · show (c.written ++ [c.nextId]).filter
                (fun j => decide (j ∉ c.completed ++ [i])) = [c.nextId]
            rw [filter_append_fresh c.written (c.completed ++ [i]) c.nextId ?fresh]
            · rw [ho1]
              exact List.nil_append _
            case fresh =>
              intro hmem3
              rcases List.mem_append.mp hmem3 with hz | hz
              · exact Nat.lt_irrefl _ (hc _ hz)
              · rw [List.mem_singleton.mp hz] at hin
                exact Nat.lt_irrefl _ hin

/-- Every step preserves the serialization invariant. -/
theorem connStep_inv (c : Connection) (e : ConnEvent) (h : ConnInv c) :
    ConnInv (connStep c e) := by
  cases e with
  | invoke m => exact connInvoke_inv c m h
  | complete => exact connComplete_inv c h

/-- Every run preserves the serialization invariant. -/
theorem connRun_inv (c : Connection) (es : List ConnEvent) (h : ConnInv c) :
    ConnInv (connRun c es) := by
  induction es generalizing c with
  | nil => exact h
  | cons e es ih => exact ih (connStep c e) (connStep_inv c e h)

/-- A fresh connection satisfies the serialization invariant. -/
theorem connInit_inv : ConnInv connInit := by
  refine ⟨?_, ?_, ?_⟩ <;> simp [connInit, outstanding]

/-! ## Claim C2 -/

/-- C2: on every reachable connection state at most one request frame is
outstanding on the pipe at any instant, and an `invoke` issued while
another request is in flight is queued — the pipe, the in-flight slot, and
everything but the queue are untouched. -/
theorem requests_serialized_one_in_flight
    (es : List ConnEvent) (c : Connection) (m : String)
    (h : c.inflight.isSome = true) :
    (outstanding (connRun connInit es)).length ≤ 1 ∧
    (connInvoke c m).written = c.written ∧
    (connInvoke c m).inflight = c.inflight ∧
    (connInvoke c m).queue = c.queue ++ [m] := by
  obtain ⟨j, hj⟩ := Option.isSome_iff_exists.mp h
  refine ⟨?_, ?_, ?_, ?_⟩
  · obtain ⟨-, -, hio⟩ := connRun_inv connInit es connInit_inv
    cases hfin : (connRun connInit es).inflight with
    | some i =>
        rw [hfin] at hio
        rw [hio]
        exact le_refl 1
    | none =>
        rw [hfin] at hio
        rw [hio]
        exact Nat.zero_le 1
  all_goals unfold connInvoke
  all_goals rw [hj]

/-- Witness for C2: after two `invoke` calls on a fresh connection the
first is in flight; a third `invoke` is queued without writing to the pipe,
and the reachable state has at most one outstanding frame. -/
theorem requests_serialized_witness :
    (connRun connInit [ConnEvent.invoke "tools/list", ConnEvent.invoke "tools/call"]).inflight.isSome
      = true ∧
    (outstanding (connRun connInit
        [ConnEvent.invoke "tools/list", ConnEvent.invoke "tools/call"])).length ≤ 1 ∧
    (connInvoke (connRun connInit
        [ConnEvent.invoke "tools/list", ConnEvent.invoke "tools/call"]) "ping").written =
      (connRun connInit
        [ConnEvent.invoke "tools/list", ConnEvent.invoke "tools/call"]).written ∧
    (connInvoke (connRun connInit
        [ConnEvent.invoke "tools/list", ConnEvent.invoke "tools/call"]) "ping").queue =
      (connRun connInit
        [ConnEvent.invoke "tools/list", ConnEvent.invoke "tools/call"]).queue ++ ["ping"] :=
  ⟨rfl,
   (requests_serialized_one_in_flight
      [ConnEvent.invoke "tools/list", ConnEvent.invoke "tools/call"]
      (connRun connInit [ConnEvent.invoke "tools/list", ConnEvent.invoke "tools/call"])
      "ping" rfl).1,
   (requests_serialized_one_in_flight
      [ConnEvent.invoke "tools/list", ConnEvent.invoke "tools/call"]
      (connRun connInit [ConnEvent.invoke "tools/list", ConnEvent.invoke "tools/call"])
      "ping" rfl).2.1,
   (requests_serialized_one_in_flight
      [ConnEvent.invoke "tools/list", ConnEvent.invoke "tools/call"]
      (connRun connInit [ConnEvent.invoke "tools/list", ConnEvent.invoke "tools/call"])
      "ping" rfl).2.2.2⟩

/-! ## Claim C5 -/

/-- C5: when the process exits unexpectedly while the server is `Running`,
the server transitions directly to `Failed` and every request pending on
that connection at that moment fails with `ProcessCrashed` (none is left
hanging). -/
theorem crash_while_running_fails_pending (e : ServerEntry)
    (h : e.status = LifecycleState.running) :
    (onProcessExit e).1.status = LifecycleState.failed ∧
    (onProcessExit e).2 =
      e.pending.map (fun i => (i, InvokeOutcome.processCrashed)) ∧
    (∀ i ∈ e.pending, (i, InvokeOutcome.processCrashed) ∈ (onProcessExit e).2) ∧
    (onProcessExit e).1.pending = [] := by
  unfold onProcessExit
  rw [if_pos h]
  refine ⟨rfl, rfl, ?_, rfl⟩
  intro i hi
  exact List.mem_map_of_mem _ hi

/-- Witness for C5: crashing a concrete running server with pending ids 1
and 2 yields `Failed` and fails both with `ProcessCrashed`. -/
theorem crash_while_running_witness :
    exRunning.status = LifecycleState.running ∧
    (onProcessExit exRunning).1.status = LifecycleState.failed ∧
    (onProcessExit exRunning).2 =
      [(1, InvokeOutcome.processCrashed), (2, InvokeOutcome.processCrashed)] ∧
    (onProcessExit exRunning).1.pending = [] :=
  ⟨rfl,
   (crash_while_running_fails_pending exRunning rfl).1,
   ((crash_while_running_fails_pending exRunning rfl).2.1).trans (by decide),
   (crash_while_running_fails_pending exRunning rfl).2.2.2⟩

/-! ## Claim C6: helper lemmas -/

/-- The supervisor invariant is preserved by every step. -/
theorem supStep_inv (e : ServerEntry) (ev : SupEvent) (h : SupInv e) :
    SupInv (supStep e ev) := by
  obtain ⟨h1, h2⟩ := h
  cases ev with
  | startOk pid ts =>
      show SupInv (startServer e pid ts).1
      unfold startServer
      by_cases hr : e.status = LifecycleState.running
      · rw [if_pos hr]; exact ⟨h1, h2⟩
      · rw [if_neg hr]
        exact ⟨by simp, fun _ => rfl⟩
  | startFailed =>
      show SupInv (if e.status = LifecycleState.running then e
        else { status := LifecycleState.failed, handle := none,
               pending := e.pending, tools := [] })
      by_cases hr : e.status = LifecycleState.running
      · rw [if_pos hr]; exact ⟨h1, h2⟩
      · rw [if_neg hr]
        exact ⟨by simp, fun ht => absurd rfl ht⟩
  | invokeReq id =>
      show SupInv (if e.status = LifecycleState.running then
        { e with pending := e.pending ++ [id] } else e)
      by_cases hr : e.status = LifecycleState.running
      · rw [if_pos hr]; exact ⟨h1, h2⟩
      · rw [if_neg hr]; exact ⟨h1, h2⟩
  | respond id => exact ⟨h1, h2⟩
  | stop =>
      show SupInv (stopServer e)
      exact ⟨by simp [stopServer], fun ht => absurd rfl ht⟩
  | crash =>
      show SupInv (onProcessExit e).1
      unfold onProcessExit
      by_cases hr : e.status = LifecycleState.running
      · rw [if_pos hr]
        exact ⟨by simp, fun ht => absurd rfl ht⟩
      · rw [if_neg hr]; exact ⟨h1, h2⟩

/-- The supervisor invariant is preserved by every run. -/
theorem supRun_inv (e : ServerEntry) (es : List SupEvent) (h : SupInv e) :
    SupInv (supRun e es) := by
  induction es generalizing e with
  | nil => exact h
  | cons ev es ih => exact ih (supStep e ev) (supStep_inv e ev h)

/-! ## Claim C6 -/

/-- C6: `stop` always terminates in the `Stopped` state and clears that
server's Tool Cache entries; and along every event sequence the Tool Cache
is non-empty only while the server is `Running` — that is, only between a
successful handshake and the next stop or crash. -/
theorem stop_ends_stopped_and_cache_window (e : ServerEntry)
    (es : List SupEvent) (h : SupInv e) :
    (stopServer e).status = LifecycleState.stopped ∧
    (stopServer e).tools = [] ∧
    SupInv (supRun e es) ∧
    ((supRun e es).tools ≠ [] →
      (supRun e es).status = LifecycleState.running) := by
  refine ⟨rfl, rfl, supRun_inv e es h, (supRun_inv e es h).2⟩

/-- Witness for C6: stopping the concrete running server ends `Stopped`
with an empty cache, and after a start/stop sequence from the initial
state the cache-validity window holds. -/
theorem stop_ends_stopped_witness :
    SupInv exRunning ∧
    (stopServer exRunning).status = LifecycleState.stopped ∧
    (stopServer exRunning).tools = [] ∧
    SupInv (supRun exRunning [SupEvent.stop]) :=
  ⟨by unfold SupInv; decide,
   (stop_ends_stopped_and_cache_window exRunning [SupEvent.stop]
      (by unfold SupInv; decide)).1,
   (stop_ends_stopped_and_cache_window exRunning [SupEvent.stop]
      (by unfold SupInv; decide)).2.1,
   (stop_ends_stopped_and_cache_window exRunning [SupEvent.stop]
      (by unfold SupInv; decide)).2.2.1⟩

/-! ## Claim C7 -/

/-- C7: calling `start` on a server that is already `Running` is a no-op
returning the existing ProcessHandle: the entry (status, handle, pending
requests, Tool Cache) is unchanged and no new pid is installed. -/
theorem start_idempotent_on_running (e : ServerEntry) (pid : Nat)
    (ts : List ToolDef) (h : e.status = LifecycleState.running) :
    startServer e pid ts = (e, e.handle) := by
  unfold startServer
  rw [if_pos h]

/-- Witness for C7: starting the concrete running server (handle 42) with a
fresh pid 99 returns the entry unchanged and the existing handle 42. -/
theorem start_idempotent_witness :
    exRunning.status = LifecycleState.running ∧
    startServer exRunning 99 [] = (exRunning, some 42) :=
  ⟨rfl, start_idempotent_on_running exRunning 99 [] rfl⟩

/-! ## Claim C8 -/

/-- C8: an empty server selection is valid and yields an empty tool set
rather than an error — `allTools` of no servers is the empty mapping — and
the frontend `sendMessage` sends `enabled_servers` as null (`none`) exactly
when `selectedServers` is empty, and as the list itself otherwise. -/
theorem zero_selected_servers_valid (tc : ToolCache) (selected : List String)
    (h : selected ≠ []) :
    enabledServersField [] = none ∧
    allTools tc [] = [] ∧
    enabledServersField selected = some selected := by
  refine ⟨rfl, rfl, ?_⟩
  unfold enabledServersField
  rw [if_pos (List.length_pos.mpr h)]

/-- Witness for C8: with a one-server selection the field is the list, with
no selection it is null and the combined tool list is empty. -/
theorem zero_selected_servers_witness :
    (["stripe"] : List String) ≠ [] ∧
    enabledServersField [] = none ∧
    allTools (ToolCache.mk [("stripe",
      [{ name := "list_items", description := "d", inputSchema := "s" }])]) [] = [] ∧
    enabledServersField ["stripe"] = some ["stripe"] :=
  ⟨by decide,
   (zero_selected_servers_valid (ToolCache.mk []) ["stripe"] (by decide)).1,
   (zero_selected_servers_valid (ToolCache.mk [("stripe",
      [{ name := "list_items", description := "d", inputSchema := "s" }])])
      ["stripe"] (by decide)).2.1,
   (zero_selected_servers_valid (ToolCache.mk []) ["stripe"] (by decide)).2.2⟩

/-! ## Claim C9 -/

/-- C9: `parseJsonSafely` is total — it returns the parsed value whenever
`JSON.parse` succeeds and `none` (null) whenever it throws, so rendering a
tool message never faults on malformed content — and `isJsonString` is true
exactly when the trimmed string starts with a left brace and ends with a
right brace, or starts with a left bracket and ends with a right one. -/
theorem parse_json_safely_total (s : String) (v : JsonValue) (err : String) :
    (jsonParse s = Except.ok v → parseJsonSafely s = some v) ∧
    (jsonParse s = Except.error err → parseJsonSafely s = none) ∧
    (isJsonString s =
      ((strStartsWith (jsTrim s) "\x7b" && strEndsWith (jsTrim s) "\x7d") ||
       (strStartsWith (jsTrim s) "[" && strEndsWith (jsTrim s) "]"))) := by
  refine ⟨?_, ?_, rfl⟩
  · intro h
    unfold parseJsonSafely
    rw [h]
  · intro h
    unfold parseJsonSafely
    rw [h]

/-- Witness for C9: a well-formed array parses to its value, malformed
content yields `none` without faulting, and `isJsonString` accepts a
braced object and rejects plain text. -/
theorem parse_json_safely_witness :
    jsonParse "[1, true]" =
      Except.ok (JsonValue.arr [JsonValue.num "1", JsonValue.bool true]) ∧
    parseJsonSafely "[1, true]" =
      some (JsonValue.arr [JsonValue.num "1", JsonValue.bool true]) ∧
    jsonParse "oops" = Except.error "Unexpected end of JSON input" ∧
    parseJsonSafely "oops" = none ∧
    isJsonString " \x7b\"a\": 1\x7d " = true ∧
    isJsonString "oops" = false :=
  ⟨rfl,
   (parse_json_safely_total "[1, true]"
      (JsonValue.arr [JsonValue.num "1", JsonValue.bool true]) "e").1 rfl,
   rfl,
   (parse_json_safely_total "oops" JsonValue.null
      "Unexpected end of JSON input").2.1 rfl,
   rfl, rfl⟩

/-! ## Claim C10 -/

/-- C10: the frontend `sendMessage` issues no request and mutates no state
when a previous request is still loading or the input is empty after
trimming; when it does run, it issues exactly one request and the loading
flag is false again once the fetch completes or fails, so the guard never
deadlocks message sending. -/
theorem send_message_guard_and_loading_reset (st : ChatState) (o : FetchOutcome) :
    ((jsTrim st.input = "" ∨ st.loading = true) → sendMessage st o = (st, false)) ∧
    (¬(jsTrim st.input = "" ∨ st.loading = true) →
      (sendMessage st o).2 = true ∧ (sendMessage st o).1.loading = false) := by
  constructor
  · intro h
    unfold sendMessage
    rw [if_pos h]
  · intro h
    unfold sendMessage
    rw [if_neg h]
    exact ⟨rfl, rfl⟩

/-- Witness for C10: with a request already loading, `sendMessage` returns
the state untouched and issues nothing; from an idle state with non-blank
input it issues the request and ends with `loading = false` even when the
fetch fails. -/
theorem send_message_witness :
    (jsTrim (ChatState.mk [] "hi" true).input = "" ∨
      (ChatState.mk [] "hi" true).loading = true) ∧
    sendMessage (ChatState.mk [] "hi" true) (FetchOutcome.ok []) =
      (ChatState.mk [] "hi" true, false) ∧
    ¬(jsTrim (ChatState.mk [] "hello" false).input = "" ∨
      (ChatState.mk [] "hello" false).loading = true) ∧
    (sendMessage (ChatState.mk [] "hello" false) (FetchOutcome.failed "boom")).2
      = true ∧
    (sendMessage (ChatState.mk [] "hello" false) (FetchOutcome.failed "boom")).1.loading
      = false :=
  ⟨Or.inr rfl,
   (send_message_guard_and_loading_reset (ChatState.mk [] "hi" true)
      (FetchOutcome.ok [])).1 (Or.inr rfl),
   by decide,
   ((send_message_guard_and_loading_reset (ChatState.mk [] "hello" false)
      (FetchOutcome.failed "boom")).2 (by decide)).1,
   ((send_message_guard_and_loading_reset (ChatState.mk [] "hello" false)
      (FetchOutcome.failed "boom")).2 (by decide)).2⟩

end McpManager
